import Mathlib

/-!
Shallow embedding of the cblt web server core (src/main.rs) and proofs about
its bootstrap, host selection, pattern matching, directive dispatch, static
file serving, reverse proxying and request framing.

Rust HashMaps are embedded as association lists with in-place replacement on
insert; the per-connection effects (responses written to the socket) are
embedded as the list of responses a run emits, in order. The filesystem and
the outbound HTTP client are abstracted as explicit function-valued inputs.
-/

namespace Cblt

/-- The `Directive` enum from src/config.rs as consumed by src/main.rs:
`Root`, `FileServer`, `ReverseProxy`, `Redir`, `Tls`. -/
inductive Directive : Type
  | root (pattern : String) (path : String)
  | fileServer
  | reverseProxy (pattern : String) (destination : String)
  | redir (destination : String)
  | tls (cert : String) (key : String)
deriving DecidableEq, Repr

/-- A parsed HTTP request as consumed read-only by `directive_process`:
method, URI path, headers. -/
structure Request : Type where
  method : String
  path : String
  headers : List (String × String)
deriving DecidableEq, Repr

/-- Body of an HTTP response: empty, buffered bytes, or a streamed file
(carrying the path of the opened file). -/
inductive RespBody : Type
  | empty
  | bytes (b : List Nat)
  | fileStream (path : String)
deriving DecidableEq, Repr

/-- An HTTP response: status code, headers, body. -/
structure Resp : Type where
  status : Nat
  headers : List (String × String)
  body : RespBody
deriving DecidableEq, Repr

/-- Modelled from the spec: `error_response` (src/response.rs is not under
src/) builds a response carrying the given status code; section 7 of the spec
assigns one status per error class and the core only depends on the status. -/
def error_response (status : Nat) : Resp :=
  ⟨status, [], RespBody.empty⟩

/-- Abstract filesystem seen by `file_server`: `is_dir` from
`std::path::Path::is_dir` and `openFile` for `tokio::fs::File::open`
composed with `file_size` (`some size` on success, `none` on any open
error). -/
structure Fs : Type where
  isDir : String → Bool
  openFile : String → Option Nat

/-- An outbound proxy request built by the `ReverseProxy` arm: inbound
method, destination concatenated with the request path, inbound headers. -/
structure ProxyReq : Type where
  method : String
  uri : String
  headers : List (String × String)
deriving DecidableEq, Repr

/-- Result of a successful outbound send in the `ReverseProxy` arm: upstream
status, upstream headers, and the body bytes (`none` when reading the
upstream body failed, mirroring `resp.bytes().await` returning an error). -/
structure UpstreamResp : Type where
  status : Nat
  headers : List (String × String)
  body : Option (List Nat)
deriving DecidableEq, Repr

/-- `str::ends_with` on whole strings, via the underlying character
lists. -/
def strEndsWith (s : String) (suffix : String) : Bool :=
  suffix.data.isSuffixOf s.data

/-- `str::starts_with` on whole strings, via the underlying character
lists. -/
def strStartsWith (s : String) (pre : String) : Bool :=
  pre.data.isPrefixOf s.data

/-- Dropping the final character, as `&pattern[..pattern.len() - 1]` does
for the one-byte suffix `*`. -/
def dropLastChar (s : String) : String :=
  String.mk s.data.dropLast

/-- `matches_pattern` from src/main.rs lines 373-383. -/
def matches_pattern (pattern : String) (path : String) : Bool :=
  if pattern = "*" then
    true
  else if strEndsWith pattern "*" then
    strStartsWith path (dropLastChar pattern)
  else
    pattern == path

/-- `request.uri().path().trim_start_matches('/')`: drop every leading
slash. -/
def trimLeadingSlashes (s : String) : String :=
  String.mk (s.data.dropWhile (fun c => c == '/'))

/-- `PathBuf::push` of a relative component: join with a `/` separator
unless the base already ends in one. -/
def pathJoin (base : String) (component : String) : String :=
  if strEndsWith base "/" then base ++ component else base ++ "/" ++ component

/-- The path `file_server` resolves (src/main.rs lines 311-316): the root
joined with the request path stripped of its leading slashes, with
`index.html` appended when the joined path denotes a directory. -/
def resolvedPath (fs : Fs) (root : String) (reqPath : String) : String :=
  let fp := pathJoin root (trimLeadingSlashes reqPath)
  if fs.isDir fp then pathJoin fp "index.html" else fp

/-- `file_server` from src/main.rs lines 300-339, as the single response it
sends (it sets `handled = true` in every branch, which the caller model
reflects by treating it as terminal). -/
def file_server (fs : Fs) (root_path : Option String) (req : Request) : Resp :=
  match root_path with
  | none => error_response 500
  | some root =>
      match fs.openFile (resolvedPath fs root req.path) with
      | some size => ⟨200, [("Content-Length", toString size)], RespBody.fileStream (resolvedPath fs root req.path)⟩
      | none => error_response 404

/-- Association-list lookup standing in for `HashMap::get`. -/
def lookupAssoc {α β : Type} [DecidableEq α] (k : α) : List (α × β) → Option β
  | [] => none
  | (k2, v) :: rest => if k2 = k then some v else lookupAssoc k rest

/-- Association-list insert standing in for `HashMap::insert`: replace the
binding in place when the key is present, append otherwise. -/
def insertAssoc {α β : Type} [DecidableEq α] (k : α) (v : β) : List (α × β) → List (α × β)
  | [] => [(k, v)]
  | (k2, v2) :: rest => if k2 = k then (k, v) :: rest else (k2, v2) :: insertAssoc k v rest

/-- The `Server` struct from src/main.rs lines 31-37: a listener group for
one port. -/
structure Server : Type where
  port : Nat
  hosts : List (String × List Directive)
  cert : Option String
  key : Option String
deriving DecidableEq, Repr

/-- The per-host directive scan of src/main.rs lines 55-64: start from
`(80, none, none)`; every `Tls` directive sets the port to 443 and the
cert and key paths, the last one winning. -/
def scanTls (ds : List Directive) : Nat × Option String × Option String :=
  ds.foldl
    (fun acc d =>
      match d with
      | Directive.tls c k => (443, some c, some k)
      | _ => acc)
    (80, none, none)

/-- Whether a directive list declares a `Tls` directive. -/
def declaresTls (ds : List Directive) : Bool :=
  ds.any (fun d =>
    match d with
    | Directive.tls _ _ => true
    | _ => false)

/-- `str::split` at a separator character, keeping empty fragments, on a
character list (with an accumulator for the current fragment). -/
def splitCharAux (sep : Char) : List Char → List Char → List (List Char)
  | [], cur => [cur.reverse]
  | c :: rest, cur =>
      if c == sep then cur.reverse :: splitCharAux sep rest []
      else splitCharAux sep rest (c :: cur)

/-- `"…".parse::<u16>()` restricted to plain decimal digits: `some n` for a
nonempty all-digit string whose value fits, `none` otherwise. -/
def charsToNat? (l : List Char) : Option Nat :=
  if l.isEmpty then none
  else if l.all Char.isDigit then some (l.foldl (fun n c => n * 10 + (c.toNat - 48)) 0)
  else none

/-- Port inference of src/main.rs lines 65-68: a `:suffix` in the host name
overrides the TLS-implied default; the suffix is `parts[1]` of the split at
`:` and must parse as a `u16` (`none` models the `unwrap` panic on a
non-numeric or out-of-range suffix). -/
def hostPort (host : String) (dflt : Nat) : Option Nat :=
  if host.data.contains ':' then
    match (splitCharAux ':' host.data []).get? 1 with
    | none => none
    | some p =>
        match charsToNat? p with
        | none => none
        | some n => if n < 65536 then some n else none
  else
    some dflt

/-- One iteration of the bootstrap loop in src/main.rs lines 54-87: compute
the port plus cert and key from the directives and the host name, then
`entry(port).and_modify(...).or_insert(...)`. The `and_modify` arm inserts
the host under its full configured name and assigns the cert and key
unconditionally. -/
def bootstrapStep (servers : List (Nat × Server)) (host : String) (ds : List Directive) :
    Option (List (Nat × Server)) :=
  let t := scanTls ds
  match hostPort host t.1 with
  | none => none
  | some port =>
      match lookupAssoc port servers with
      | some s =>
          some (insertAssoc port ⟨s.port, insertAssoc host ds s.hosts, t.2.1, t.2.2⟩ servers)
      | none =>
          some (insertAssoc port ⟨port, [(host, ds)], t.2.1, t.2.2⟩ servers)

/-- The whole bootstrap loop: fold `bootstrapStep` over the configured
host-to-directives entries, propagating the panic case. -/
def bootstrap (servers : List (Nat × Server)) :
    List (String × List Directive) → Option (List (Nat × Server))
  | [] => some servers
  | (host, ds) :: rest =>
      match bootstrapStep servers host ds with
      | none => none
      | some servers2 => bootstrap servers2 rest

/-- `request.headers().get("Host")` with `to_str().unwrap_or("")`: the
`http` crate looks headers up case-insensitively; absent means the empty
string. -/
def getHostHeader (req : Request) : String :=
  match req.headers.find? (fun p => p.1.data.map Char.toLower == "host".data) with
  | some p => p.2
  | none => ""

/-- Host selection of src/main.rs lines 158-174: a key starting with `*` is
used unconditionally; otherwise exact lookup on the full host header
value; `none` means 403. -/
def selectHost (hosts : List (String × List Directive)) (h : String) :
    Option (List Directive) :=
  match hosts.find? (fun p => strStartsWith p.1 "*") with
  | some p => some p.2
  | none => lookupAssoc h hosts

/-- The directive scan of src/main.rs lines 176-251, with the mutable
`root_path` threaded explicitly. Returns the responses the scan emits (in
order) and the final `handled` flag; a terminal arm emits its response and
stops (`break`). -/
def dispatchLoop (fs : Fs) (send : ProxyReq → Option UpstreamResp) (req : Request) :
    List Directive → Option String → List Resp × Bool
  | [], _ => ([], false)
  | Directive.root pat p :: rest, rp =>
      dispatchLoop fs send req rest (if matches_pattern pat req.path then some p else rp)
  | Directive.fileServer :: _, rp => ([file_server fs rp req], true)
  | Directive.reverseProxy pat dest :: rest, rp =>
      if matches_pattern pat req.path then
        match send ⟨req.method, dest ++ req.path, req.headers⟩ with
        | some up => ([⟨up.status, up.headers, RespBody.bytes (up.body.getD [])⟩], true)
        | none => ([error_response 502], true)
      else
        dispatchLoop fs send req rest rp
  | Directive.redir dest :: _, _ =>
      ([⟨302, [("Location", dest.replace "{uri}" req.path)], RespBody.bytes []⟩], true)
  | Directive.tls _ _ :: rest, rp => dispatchLoop fs send req rest rp

/-- `directive_process` from src/main.rs lines 144-258, for an already
parsed request: select the host configuration (403 when none), run the
directive scan, and fall back to 404 when the scan ends unhandled. The
result is the list of responses written to the connection, in order. -/
def directive_process (fs : Fs) (send : ProxyReq → Option UpstreamResp)
    (server : Server) (req : Request) : List Resp :=
  match selectHost server.hosts (getHostHeader req) with
  | none => [error_response 403]
  | some cfg =>
      let r := dispatchLoop fs send req cfg none
      if r.2 then r.1 else r.1 ++ [error_response 404]

/-- Whether an accumulated buffer ends with the header terminator
`\r\n\r\n` (`buf.ends_with(b"\r\n\r\n")` in src/main.rs line 274). -/
def isTerminated (buf : List Nat) : Bool :=
  [13, 10, 13, 10].isSuffixOf buf

/-- The framing loop of `read_from_socket` (src/main.rs lines 265-277). The
input is the sequence of chunks successive `read_until(b'\n')` calls
return; an exhausted list is the zero-byte read of a closed connection.
Returns the accumulated buffer and whether the loop exited on connection
close (`true`) rather than on observing the terminator (`false`). -/
def readLoop : List (List Nat) → List Nat → List Nat × Bool
  | [], buf => (buf, true)
  | c :: rest, buf =>
      if isTerminated (buf ++ c) then (buf ++ c, false) else readLoop rest (buf ++ c)

/-- One step of UTF-8 validation: the state is `none` at a character
boundary and `some (k, lo, hi)` when a continuation byte in `[lo, hi]` is
expected, followed by `k` further continuation bytes in `[0x80, 0xBF]`. -/
def utf8Run : List Nat → Option (Nat × Nat × Nat) → Bool
  | [], st => st.isNone
  | b :: rest, some (k, lo, hi) =>
      if lo ≤ b && b ≤ hi then
        utf8Run rest (if k = 0 then none else some (k - 1, 128, 191))
      else false
  | b :: rest, none =>
      if b ≤ 127 then utf8Run rest none
      else if 194 ≤ b && b ≤ 223 then utf8Run rest (some (0, 128, 191))
      else if b = 224 then utf8Run rest (some (1, 160, 191))
      else if b = 237 then utf8Run rest (some (1, 128, 159))
      else if 225 ≤ b && b ≤ 239 then utf8Run rest (some (1, 128, 191))
      else if b = 240 then utf8Run rest (some (2, 144, 191))
      else if 241 ≤ b && b ≤ 243 then utf8Run rest (some (2, 128, 191))
      else if b = 244 then utf8Run rest (some (2, 128, 143))
      else false

/-- `str::from_utf8` succeeds exactly on valid UTF-8 byte sequences
(src/main.rs line 279). -/
def utf8Valid (buf : List Nat) : Bool :=
  utf8Run buf none

/-- The bytes of the request line: everything before the first `\r\n`. -/
def takeUntilCRLF : List Nat → List Nat
  | [] => []
  | 13 :: 10 :: _ => []
  | b :: rest => b :: takeUntilCRLF rest

/-- Split a byte list into maximal runs separated by spaces (byte 32),
dropping empty runs, as `split_whitespace` does on the request line. -/
def splitSpaces : List Nat → List Nat → List (List Nat)
  | [], cur => if cur.isEmpty then [] else [cur.reverse]
  | 32 :: rest, cur =>
      if cur.isEmpty then splitSpaces rest [] else cur.reverse :: splitSpaces rest []
  | b :: rest, cur => splitSpaces rest (b :: cur)

/-- A parsed request at the byte level: the method and URI path tokens of
the request line. -/
structure RawRequest : Type where
  method : List Nat
  path : List Nat
deriving DecidableEq, Repr

/-- Modelled from the spec: `parse_request` (src/request.rs, which is not
under src/). Per section 4.3 the framer hands the parser a complete header
block, and a connection closed before the terminator produces no request
(also section 8), so a buffer lacking the `\r\n\r\n` terminator is a parser
rejection; per section 7 a malformed request line is a parser rejection.
The request line must hold exactly three space-separated tokens: method,
path, version. -/
def parse_request (buf : List Nat) : Option RawRequest :=
  if isTerminated buf then
    match splitSpaces (takeUntilCRLF buf) [] with
    | [m, p, _] => some ⟨m, p⟩
    | _ => none
  else
    none

/-- `read_from_socket` from src/main.rs lines 262-298: run the framing
loop, then reject non-UTF-8 content or a parser rejection with a single
`400 Bad Request` response and no request; otherwise hand the parsed
request on with no response written. -/
def read_from_socket (chunks : List (List Nat)) : Option RawRequest × List Resp :=
  let r := readLoop chunks []
  if utf8Valid r.1 then
    match parse_request r.1 with
    | none => (none, [error_response 400])
    | some rq => (some rq, [])
  else
    (none, [error_response 400])

/-- The claim-side description of the root in effect after a run of `Root`
directives: the path of the last directive whose pattern matches the
request path, an earlier match or the initial value otherwise. -/
def lastMatchingRoot (reqPath : String) (roots : List (String × String))
    (init : Option String) : Option String :=
  roots.foldl (fun r pr => if matches_pattern pr.1 reqPath then some pr.2 else r) init

/-! Sample concrete values used by witnesses. -/

/-- A filesystem with no directories and no openable files. -/
def fs0 : Fs := ⟨fun _ => false, fun _ => none⟩

/-- A filesystem where exactly the file `/www/a` opens, with size 5. -/
def fsA : Fs := ⟨fun _ => false, fun p => if p = "/www/a" then some 5 else none⟩

/-- An upstream that always fails at the transport level. -/
def send0 : ProxyReq → Option UpstreamResp := fun _ => none

/-- An upstream that answers 200 with one header but whose body read
fails. -/
def sendU : ProxyReq → Option UpstreamResp := fun _ => some ⟨200, [("X-Up", "1")], none⟩

/-- A sample request: `GET /a` with no headers. -/
def req0 : Request := ⟨"GET", "/a", []⟩

/-! Helper lemmas. -/

theorem lookupAssoc_insertAssoc_self {α β : Type} [DecidableEq α] (k : α) (v : β) :
    ∀ l : List (α × β), lookupAssoc k (insertAssoc k v l) = some v := by
  intro l
  induction l with
  | nil => simp [insertAssoc, lookupAssoc]
  | cons hd tl ih =>
      by_cases h : hd.1 = k
      · simp [insertAssoc, lookupAssoc, h]
      · cases hd with
        | mk k2 v2 =>
            simp only at h
            simp [insertAssoc, lookupAssoc, h, ih]

theorem lookupAssoc_mem {α β : Type} [DecidableEq α] (k : α) (v : β) :
    ∀ l : List (α × β), lookupAssoc k l = some v → (k, v) ∈ l := by
  intro l
  induction l with
  | nil => intro h; simp [lookupAssoc] at h
  | cons hd tl ih =>
      intro h
      cases hd with
      | mk k2 v2 =>
          by_cases hk : k2 = k
          · subst hk
            simp [lookupAssoc] at h
            simp [h]
          · simp [lookupAssoc, hk] at h
            exact List.mem_cons_of_mem _ (ih h)

theorem dispatchLoop_shape (fs : Fs) (send : ProxyReq → Option UpstreamResp) (req : Request) :
    ∀ (ds : List Directive) (rp : Option String),
      dispatchLoop fs send req ds rp = ([], false)
      ∨ ∃ r, dispatchLoop fs send req ds rp = ([r], true) := by
  intro ds
  induction ds with
  | nil => intro rp; exact Or.inl rfl
  | cons d rest ih =>
      intro rp
      cases d with
      | root pat p => simpa only [dispatchLoop] using ih _
      | fileServer => exact Or.inr ⟨_, rfl⟩
      | reverseProxy pat dest =>
          by_cases h : matches_pattern pat req.path
          · cases hs : send ⟨req.method, dest ++ req.path, req.headers⟩ with
            | none => exact Or.inr ⟨error_response 502, by simp [dispatchLoop, h, hs]⟩
            | some up =>
                exact Or.inr ⟨⟨up.status, up.headers, RespBody.bytes (up.body.getD [])⟩,
                  by simp [dispatchLoop, h, hs]⟩
          · simpa only [dispatchLoop, if_neg h] using ih rp
      | redir dest => exact Or.inr ⟨_, rfl⟩
      | tls c k => simpa only [dispatchLoop] using ih rp

theorem lastMatchingRoot_cons (p : String) (pr : String × String)
    (roots : List (String × String)) (r0 : Option String) :
    lastMatchingRoot p (pr :: roots) r0
      = lastMatchingRoot p roots (if matches_pattern pr.1 p then some pr.2 else r0) := rfl

theorem scanTls_no_tls (ds : List Directive) (h : declaresTls ds = false) :
    scanTls ds = (80, none, none) := by
  have aux : ∀ (l : List Directive) (acc : Nat × Option String × Option String),
      declaresTls l = false →
      l.foldl
        (fun acc d =>
          match d with
          | Directive.tls c k => (443, some c, some k)
          | _ => acc) acc = acc := by
    intro l
    induction l with
    | nil => intro acc _; rfl
    | cons d rest ih =>
        intro acc hl
        simp only [declaresTls, List.any_cons, Bool.or_eq_false_iff] at hl
        have h2 : declaresTls rest = false := hl.2
        cases d with
        | tls c k => simp at hl
        | root pat p => simpa using ih acc h2
        | fileServer => simpa using ih acc h2
        | reverseProxy pat dest => simpa using ih acc h2
        | redir dest => simpa using ih acc h2
  simpa [scanTls] using aux ds (80, none, none) h

theorem readLoop_closed_not_terminated :
    ∀ (chunks : List (List Nat)) (buf : List Nat),
      isTerminated buf = false →
      (readLoop chunks buf).2 = true →
      isTerminated (readLoop chunks buf).1 = false := by
  intro chunks
  induction chunks with
  | nil => intro buf h _; simpa [readLoop] using h
  | cons c rest ih =>
      intro buf h hc
      by_cases ht : isTerminated (buf ++ c) = true
      · rw [readLoop, if_pos ht] at hc
        exact Bool.noConfusion hc
      · have ht2 : isTerminated (buf ++ c) = false := by
          cases hb : isTerminated (buf ++ c)
          · rfl
          · exact absurd hb ht
        rw [readLoop, if_neg ht] at hc ⊢
        exact ih _ ht2 hc

/-! Claim theorems. -/

/-- Claim C4: `matches_pattern` semantics. The pattern `*` matches every
path; a pattern ending in `*` (other than `*` itself) matches exactly the
paths starting with the pattern minus its final `*`; any other pattern
matches exactly itself. The five concrete examples of the spec hold. -/
theorem c4_matches_pattern :
    (∀ s, matches_pattern "*" s = true)
    ∧ (∀ p s, p ≠ "*" → strEndsWith p "*" = true →
        matches_pattern p s = strStartsWith s (dropLastChar p))
    ∧ (∀ p s, strEndsWith p "*" = false → (matches_pattern p s = true ↔ p = s))
    ∧ matches_pattern "*" "/anything" = true
    ∧ matches_pattern "/a*" "/ab" = true
    ∧ matches_pattern "/a*" "/b" = false
    ∧ matches_pattern "/a" "/a" = true
    ∧ matches_pattern "/a" "/ab" = false := by
  refine ⟨?_, ?_, ?_, by decide, by decide, by decide, by decide, by decide⟩
  · intro s; rfl
  · intro p s h1 h2; simp [matches_pattern, h1, h2]
  · intro p s h
    have hne : p ≠ "*" := by
      intro e
      subst e
      have hT : strEndsWith "*" "*" = true := by decide
      rw [hT] at h
      exact Bool.noConfusion h
    simp [matches_pattern, hne, h]

/-- Claim C4 witness: the prefix clause applied at the pattern `/a*` and
path `/ab`. -/
theorem c4_matches_pattern_witness :
    matches_pattern "/a*" "/ab" = strStartsWith "/ab" (dropLastChar "/a*") :=
  c4_matches_pattern.2.1 "/a*" "/ab" (by decide) (by decide)

/-- Claim C5: during the scan each matching `Root` overwrites `root_path`,
so a terminal `FileServer` sees the path of the last matching `Root`
before it; in particular the spec example yields root `/images`. -/
theorem c5_last_root_wins :
    (∀ (fs : Fs) (send : ProxyReq → Option UpstreamResp) (req : Request)
        (roots : List (String × String)) (rest : List Directive) (r0 : Option String),
      dispatchLoop fs send req
          ((roots.map fun pr => Directive.root pr.1 pr.2) ++ Directive.fileServer :: rest) r0
        = ([file_server fs (lastMatchingRoot req.path roots r0) req], true))
    ∧ (∀ (fs : Fs) (send : ProxyReq → Option UpstreamResp) (m : String)
        (hs : List (String × String)),
      dispatchLoop fs send ⟨m, "/img/x.png", hs⟩
          [Directive.root "*" "/www", Directive.root "/img*" "/images", Directive.fileServer] none
        = ([file_server fs (some "/images") ⟨m, "/img/x.png", hs⟩], true)) := by
  have main : ∀ (fs : Fs) (send : ProxyReq → Option UpstreamResp) (req : Request)
      (roots : List (String × String)) (rest : List Directive) (r0 : Option String),
      dispatchLoop fs send req
          ((roots.map fun pr => Directive.root pr.1 pr.2) ++ Directive.fileServer :: rest) r0
        = ([file_server fs (lastMatchingRoot req.path roots r0) req], true) := by
    intro fs send req roots
    induction roots with
    | nil => intro rest r0; simp [dispatchLoop, lastMatchingRoot]
    | cons pr roots ih =>
        intro rest r0
        rw [lastMatchingRoot_cons]
        simp only [List.map_cons, List.cons_append, dispatchLoop]
        exact ih rest _
  refine ⟨main, ?_⟩
  intro fs send m hs
  have h := main fs send ⟨m, "/img/x.png", hs⟩ [("*", "/www"), ("/img*", "/images")] [] none
  have h2 : lastMatchingRoot "/img/x.png" [("*", "/www"), ("/img*", "/images")] none
      = some "/images" := by decide
  simpa [h2] using h

/-- Claim C6: a `ReverseProxy` whose pattern does not match the request
path leaves the scan exactly as if the directive were absent, so a later
directive still fires; when the pattern matches, the result ignores the
remaining directives and the scan ends handled. -/
theorem c6_nonmatching_proxy_continues :
    ∀ (fs : Fs) (send : ProxyReq → Option UpstreamResp) (req : Request)
      (pat dest : String) (rest rest2 : List Directive) (rp : Option String),
      (matches_pattern pat req.path = false →
        dispatchLoop fs send req (Directive.reverseProxy pat dest :: rest) rp
          = dispatchLoop fs send req rest rp)
      ∧ (matches_pattern pat req.path = true →
        dispatchLoop fs send req (Directive.reverseProxy pat dest :: rest) rp
            = dispatchLoop fs send req (Directive.reverseProxy pat dest :: rest2) rp
          ∧ (dispatchLoop fs send req (Directive.reverseProxy pat dest :: rest) rp).2 = true) := by
  intro fs send req pat dest rest rest2 rp
  constructor
  · intro h; simp [dispatchLoop, h]
  · intro h
    refine ⟨by simp [dispatchLoop, h], ?_⟩
    cases hs : send ⟨req.method, dest ++ req.path, req.headers⟩ with
    | none => simp [dispatchLoop, h, hs]
    | some up => simp [dispatchLoop, h, hs]

/-- Claim C6 witness: with the non-matching pattern `/x*` on request path
`/a`, the scan equals the scan of the tail, and the later `Redir` fires. -/
theorem c6_nonmatching_proxy_continues_witness :
    dispatchLoop fs0 send0 req0
        [Directive.reverseProxy "/x*" "http://up", Directive.redir "/r"] none
      = dispatchLoop fs0 send0 req0 [Directive.redir "/r"] none :=
  (c6_nonmatching_proxy_continues fs0 send0 req0 "/x*" "http://up"
    [Directive.redir "/r"] [] none).1 (by decide)

/-- Claim C7: `file_server` answers 500 when `root_path` is unset, 404
when opening the resolved file fails, and 200 with `Content-Length` equal
to the file size on success; the resolved path is the root joined with
the request path stripped of its leading slashes, with `index.html`
appended when that path denotes a directory. -/
theorem c7_file_server_cases :
    ∀ (fs : Fs) (req : Request),
      file_server fs none req = error_response 500
      ∧ ∀ root : String,
          (fs.openFile (resolvedPath fs root req.path) = none →
            file_server fs (some root) req = error_response 404)
          ∧ (∀ sz, fs.openFile (resolvedPath fs root req.path) = some sz →
            file_server fs (some root) req
              = ⟨200, [("Content-Length", toString sz)],
                  RespBody.fileStream (resolvedPath fs root req.path)⟩)
          ∧ resolvedPath fs root req.path
              = (if fs.isDir (pathJoin root (trimLeadingSlashes req.path))
                  then pathJoin (pathJoin root (trimLeadingSlashes req.path)) "index.html"
                  else pathJoin root (trimLeadingSlashes req.path)) := by
  intro fs req
  refine ⟨rfl, ?_⟩
  intro root
  refine ⟨?_, ?_, rfl⟩
  · intro h; simp [file_server, h]
  · intro sz h; simp [file_server, h]

/-- Claim C7 witness: on the filesystem `fsA`, root `/www` and request
path `/a` resolve to `/www/a`, which opens with size 5 and yields the 200
response. -/
theorem c7_file_server_cases_witness :
    file_server fsA (some "/www") ⟨"GET", "/a", []⟩
      = ⟨200, [("Content-Length", toString 5)],
          RespBody.fileStream (resolvedPath fsA "/www" "/a")⟩ :=
  ((c7_file_server_cases fsA ⟨"GET", "/a", []⟩).2 "/www").2.1 5 (by decide)

/-- Claim C9: for every parsed request, `directive_process` emits exactly
one response: 403 on host mismatch, the single response of the first
terminal directive that fires, or the 404 fallback when the scan ends
unhandled — never zero responses and never two. -/
theorem c9_exactly_one_response :
    ∀ (fs : Fs) (send : ProxyReq → Option UpstreamResp) (server : Server) (req : Request),
      (directive_process fs send server req).length = 1 := by
  intro fs send server req
  simp only [directive_process]
  cases hsel : selectHost server.hosts (getHostHeader req) with
  | none => simp
  | some cfg =>
      rcases dispatchLoop_shape fs send req cfg none with h | ⟨r, h⟩ <;> simp [h]

/-- Claim C10: when a matching `ReverseProxy` sends successfully but the
upstream body read fails, the downstream response mirrors the upstream
status and headers with an empty body — it is not turned into 502; 502 is
produced exactly when the outbound send itself fails. -/
theorem c10_upstream_body_failure_mirrors :
    ∀ (fs : Fs) (send : ProxyReq → Option UpstreamResp) (req : Request)
      (pat dest : String) (rest : List Directive) (rp : Option String) (up : UpstreamResp),
      matches_pattern pat req.path = true →
      (send ⟨req.method, dest ++ req.path, req.headers⟩ = some up → up.body = none →
        dispatchLoop fs send req (Directive.reverseProxy pat dest :: rest) rp
          = ([⟨up.status, up.headers, RespBody.bytes []⟩], true))
      ∧ (send ⟨req.method, dest ++ req.path, req.headers⟩ = none →
        dispatchLoop fs send req (Directive.reverseProxy pat dest :: rest) rp
          = ([error_response 502], true)) := by
  intro fs send req pat dest rest rp up hm
  constructor
  · intro hs hb; simp [dispatchLoop, hm, hs, hb]
  · intro hs; simp [dispatchLoop, hm, hs]

/-- Claim C10 witness: the upstream `sendU` answers 200 with a header but
its body read fails; the downstream response is the mirrored 200 with an
empty body, not 502. -/
theorem c10_upstream_body_failure_mirrors_witness :
    dispatchLoop fs0 sendU req0 [Directive.reverseProxy "*" "http://up"] none
      = ([⟨200, [("X-Up", "1")], RespBody.bytes []⟩], true) :=
  (c10_upstream_body_failure_mirrors fs0 sendU req0 "*" "http://up" [] none
    ⟨200, [("X-Up", "1")], none⟩ (by decide)).1 rfl rfl

/-- A group for port 8080 created by the TLS-declaring host `a:8080`. -/
def sA : Server := ⟨8080, [("a:8080", [Directive.tls "c.pem" "k.pem"])], some "c.pem", some "k.pem"⟩

/-- The server table holding only `sA` at port 8080. -/
def servers0 : List (Nat × Server) := [(8080, sA)]

/-- A group on port 80 whose only host is `h1`, with no wildcard entry. -/
def srv1 : Server := ⟨80, [("h1", [])], none, none⟩

/-- A request carrying `Host: h2`. -/
def reqH2 : Request := ⟨"GET", "/a", [("Host", "h2")]⟩

/-- Claim C1 counterexample: the host `b:8080` declares no `Tls`
directive, yet merging it into the existing port-8080 group overwrites
the group cert and key with `none` — they do not stay `some "c.pem"` and
`some "k.pem"` (src/main.rs lines 74-75 assign them unconditionally). -/
theorem c1_counterexample :
    bootstrapStep
        [(8080, ⟨8080, [("a:8080", [Directive.tls "c.pem" "k.pem"])], some "c.pem", some "k.pem"⟩)]
        "b:8080" []
      = some [(8080,
          ⟨8080, [("a:8080", [Directive.tls "c.pem" "k.pem"]), ("b:8080", [])], none, none⟩)]
    ∧ declaresTls ([] : List Directive) = false
    ∧ (some "c.pem" : Option String) ≠ (none : Option String) :=
  ⟨by decide, by decide, by decide⟩

/-- Claim C1 (amended): merging a host into an already-existing group for
its port always overwrites the group cert and key with the values the
host directive scan produced — the paths of its last `Tls` directive, or
`none` when it declares no `Tls`; a host without `Tls` therefore clears a
previously set cert and key rather than leaving them unchanged. -/
theorem c1_merge_overwrites_cert :
    ∀ (servers : List (Nat × Server)) (host : String) (ds : List Directive)
      (port : Nat) (s : Server),
      hostPort host (scanTls ds).1 = some port →
      lookupAssoc port servers = some s →
      bootstrapStep servers host ds
        = some (insertAssoc port
            ⟨s.port, insertAssoc host ds s.hosts, (scanTls ds).2.1, (scanTls ds).2.2⟩ servers)
      ∧ (declaresTls ds = false → (scanTls ds).2.1 = none ∧ (scanTls ds).2.2 = none) := by
  intro servers host ds port s h1 h2
  constructor
  · simp [bootstrapStep, h1, h2]
  · intro hno
    rw [scanTls_no_tls ds hno]
    exact ⟨rfl, rfl⟩

/-- Claim C1 witness: the amended statement at the concrete merge of the
TLS-less host `b:8080` into the group `sA` holds. -/
theorem c1_merge_overwrites_cert_witness :
    bootstrapStep servers0 "b:8080" []
      = some (insertAssoc 8080
          ⟨sA.port, insertAssoc "b:8080" [] sA.hosts, (scanTls []).2.1, (scanTls []).2.2⟩ servers0)
    ∧ (declaresTls [] = false → (scanTls []).2.1 = none ∧ (scanTls []).2.2 = none) :=
  c1_merge_overwrites_cert servers0 "b:8080" [] 8080 sA (by decide) (by decide)

/-- Claim C2 counterexample: bootstrapping the host `example.com:8080`
stores its HostTable entry under the full name `example.com:8080`, a key
that still carries the `:8080` suffix; the bare name `example.com` is not
a key. -/
theorem c2_counterexample :
    bootstrap [] [("example.com:8080", [])]
      = some [(8080, ⟨8080, [("example.com:8080", [])], none, none⟩)]
    ∧ lookupAssoc "example.com" [("example.com:8080", ([] : List Directive))] = none
    ∧ "example.com:8080".data.contains ':' = true :=
  ⟨by decide, by decide, by decide⟩

/-- Claim C2 (amended): the bootstrap inserts every host entry into its
ListenerGroup HostTable keyed by the full configured host name, the
`:port` suffix included — the suffix is parsed for the port but never
stripped from the key. -/
theorem c2_full_host_key :
    ∀ (servers : List (Nat × Server)) (host : String) (ds : List Directive)
      (port : Nat) (out : List (Nat × Server)),
      hostPort host (scanTls ds).1 = some port →
      bootstrapStep servers host ds = some out →
      ∃ g : Server, lookupAssoc port out = some g ∧ lookupAssoc host g.hosts = some ds := by
  intro servers host ds port out h1 h2
  cases hl : lookupAssoc port servers with
  | some s =>
      have h3 : bootstrapStep servers host ds
          = some (insertAssoc port
              ⟨s.port, insertAssoc host ds s.hosts, (scanTls ds).2.1, (scanTls ds).2.2⟩ servers) := by
        simp [bootstrapStep, h1, hl]
      rw [h3] at h2
      have h4 := Option.some.inj h2
      refine ⟨⟨s.port, insertAssoc host ds s.hosts, (scanTls ds).2.1, (scanTls ds).2.2⟩, ?_, ?_⟩
      · rw [← h4]
        exact lookupAssoc_insertAssoc_self port _ servers
      · exact lookupAssoc_insertAssoc_self host ds s.hosts
  | none =>
      have h3 : bootstrapStep servers host ds
          = some (insertAssoc port
              ⟨port, [(host, ds)], (scanTls ds).2.1, (scanTls ds).2.2⟩ servers) := by
        simp [bootstrapStep, h1, hl]
      rw [h3] at h2
      have h4 := Option.some.inj h2
      refine ⟨⟨port, [(host, ds)], (scanTls ds).2.1, (scanTls ds).2.2⟩, ?_, ?_⟩
      · rw [← h4]
        exact lookupAssoc_insertAssoc_self port _ servers
      · simp [lookupAssoc]

/-- Claim C2 witness: the amended statement at the concrete host
`example.com:8080` with an empty directive list. -/
theorem c2_full_host_key_witness :
    ∃ g : Server,
      lookupAssoc 8080 [(8080, (⟨8080, [("example.com:8080", [])], none, none⟩ : Server))]
          = some g
      ∧ lookupAssoc "example.com:8080" g.hosts = some [] :=
  c2_full_host_key [] "example.com:8080" [] 8080
    [(8080, ⟨8080, [("example.com:8080", [])], none, none⟩)] (by decide) (by decide)

/-- Claim C3: the Host header is read (empty when absent); a wildcard key
(starting with `*`) is used unconditionally for every header value; with
no wildcard the directive list is found by exact key match on the full
header value; with no match the run emits exactly the 403 response and no
directive executes; and the selected directive list always belongs to an
entry keyed by the request Host header, so a request for H1 never runs
the directives of a different host H2. -/
theorem c3_host_selection :
    ∀ (fs : Fs) (send : ProxyReq → Option UpstreamResp) (server : Server) (req : Request),
      (req.headers.find? (fun p => p.1.data.map Char.toLower == "host".data) = none →
        getHostHeader req = "")
      ∧ (∀ p, server.hosts.find? (fun e => strStartsWith e.1 "*") = some p →
          ∀ h, selectHost server.hosts h = some p.2)
      ∧ (server.hosts.find? (fun e => strStartsWith e.1 "*") = none →
          (∀ h, selectHost server.hosts h = lookupAssoc h server.hosts)
          ∧ (lookupAssoc (getHostHeader req) server.hosts = none →
              directive_process fs send server req = [error_response 403])
          ∧ (∀ cfg, selectHost server.hosts (getHostHeader req) = some cfg →
              (getHostHeader req, cfg) ∈ server.hosts)) := by
  intro fs send server req
  refine ⟨?_, ?_, ?_⟩
  · intro h; simp [getHostHeader, h]
  · intro p hp h; simp [selectHost, hp]
  · intro hw
    refine ⟨?_, ?_, ?_⟩
    · intro h; simp [selectHost, hw]
    · intro hnone
      have hsel : selectHost server.hosts (getHostHeader req) = none := by
        simp [selectHost, hw, hnone]
      simp [directive_process, hsel]
    · intro cfg hcfg
      have hlk : lookupAssoc (getHostHeader req) server.hosts = some cfg := by
        simpa [selectHost, hw] using hcfg
      exact lookupAssoc_mem _ _ _ hlk

/-- Claim C3 witness: the 403 clause at the group `srv1` (hosts `h1`
only, no wildcard) and a request with `Host: h2`. -/
theorem c3_host_selection_witness :
    directive_process fs0 send0 srv1 reqH2 = [error_response 403] :=
  ((c3_host_selection fs0 send0 srv1 reqH2).2.2 (by decide)).2.1 (by decide)

/-- Claim C8: whenever the framing loop exits on connection close before
observing the `\r\n\r\n` terminator, `read_from_socket` totalizes to a
single `400 Bad Request` response and produces no request, so processing
for that connection aborts — for non-UTF-8 content via the decode branch,
otherwise via parser rejection of the terminator-less buffer. -/
theorem c8_framing_close_before_terminator :
    ∀ chunks : List (List Nat),
      (readLoop chunks []).2 = true →
      read_from_socket chunks = (none, [error_response 400]) := by
  intro chunks hc
  have hterm : isTerminated (readLoop chunks []).1 = false :=
    readLoop_closed_not_terminated chunks [] (by decide) hc
  have hparse : parse_request (readLoop chunks []).1 = none := by
    simp [parse_request, hterm]
  simp only [read_from_socket]
  cases hu : utf8Valid (readLoop chunks []).1 with
  | false => simp [hu]
  | true => simp [hu, hparse]

/-- Claim C8 witness: the stream consisting of the single chunk `GET\n`
closes before any terminator and is answered with exactly one 400. -/
theorem c8_framing_close_before_terminator_witness :
    read_from_socket [[71, 69, 84, 10]] = (none, [error_response 400]) :=
  c8_framing_close_before_terminator [[71, 69, 84, 10]] (by decide)

end Cblt
